import Mathlib

/-!
Shallow embedding of the litpack/cli project generator (src/index.js, with the
earlier variant in src/unnamed/part_000) and proofs about its behaviour.

File contents are modelled as `List Char`; interactive prompt answers as lists
or oracles of `List Char`; filesystem stat results, clone/checkout outcomes and
version-check outcomes as explicit parameters.  External command invocations
are modelled as records of the command string and the working directory they
run in.
-/

namespace Litpack

/-- The double-quote character, written via its code point. -/
def qc : Char := Char.ofNat 34

/-- The dollar character, special in JS replacement strings. -/
def dollar : Char := Char.ofNat 36

/-- The backquote character (JS replacement pattern for the preceding portion). -/
def backquote : Char := Char.ofNat 96

/-- The single-quote character (JS replacement pattern for the following portion). -/
def squote : Char := Char.ofNat 39

/-- The opening-brace character, written via its code point. -/
def lbrace : Char := Char.ofNat 123

/-- The closing-brace character, written via its code point. -/
def rbrace : Char := Char.ofNat 125

/-- JS whitespace class: the characters matched by `\s` in a JS regular
expression, which coincide with the set stripped by `String.prototype.trim`
(WhiteSpace plus LineTerminator code points). -/
def isJsWhitespace (c : Char) : Bool :=
  c.toNat = 9 || c.toNat = 10 || c.toNat = 11 || c.toNat = 12 || c.toNat = 13 ||
  c.toNat = 32 || c.toNat = 0xa0 || c.toNat = 0x1680 ||
  (0x2000 ≤ c.toNat && c.toNat ≤ 0x200a) ||
  c.toNat = 0x2028 || c.toNat = 0x2029 || c.toNat = 0x202f || c.toNat = 0x205f ||
  c.toNat = 0x3000 || c.toNat = 0xfeff

/-- JS `.` (without the `s` flag): any character except the four
LineTerminator code points. -/
def isDot (c : Char) : Bool :=
  !(c.toNat = 10 || c.toNat = 13 || c.toNat = 0x2028 || c.toNat = 0x2029)

/-- JS `String.prototype.trim` on a character list: strip JS whitespace from
both ends. -/
def jsTrim (l : List Char) : List Char :=
  ((l.dropWhile isJsWhitespace).reverse.dropWhile isJsWhitespace).reverse

/-- The literal part `"name":` of the regex `/"name":\s*"(.*?)"/` in
`updatePackageJson` (src/index.js line 231, src/unnamed/part_000 line 133). -/
def litName : List Char := [qc, 'n', 'a', 'm', 'e', qc, ':']

/-- Greedy `\s*`: split a character list into its maximal leading run of JS
whitespace and the remainder.  Followed by a literal `"` in the regex, greedy
matching with backtracking is equivalent to taking the maximal run, because no
shorter run can be followed by a quote. -/
def spanSpaces : List Char → List Char × List Char
  | [] => ([], [])
  | c :: rest =>
    if isJsWhitespace c then
      ((spanSpaces rest).1.cons c, (spanSpaces rest).2)
    else ([], c :: rest)

/-- Lazy `(.*?)"`: the shortest run of `.`-matchable characters followed by a
double quote.  Returns the captured group and the characters after the closing
quote, or `none` when a line terminator or the end of input is reached before
a quote. -/
def findCapture : List Char → Option (List Char × List Char)
  | [] => none
  | c :: rest =>
    if c = qc then some ([], rest)
    else if isDot c then
      (findCapture rest).map (fun pr => (c :: pr.1, pr.2))
    else none

/-- Attempt to match the regex `/"name":\s*"(.*?)"/` at the head of the list.
On success returns the matched substring, the captured group, and the
remainder after the match. -/
def matchAt (cs : List Char) : Option (List Char × List Char × List Char) :=
  if cs.take 7 = litName then
    match spanSpaces (cs.drop 7) with
    | (sp, c :: rest2) =>
      if c = qc then
        match findCapture rest2 with
        | some (cap, rest3) =>
          some (litName ++ (sp ++ (qc :: (cap ++ [qc]))), cap, rest3)
        | none => none
      else none
    | (_, []) => none
  else none

/-- Decomposition of a text around the leftmost regex match: the prefix before
the match, the matched substring, the captured group, and the suffix after the
match. -/
structure MatchSplit where
  pre : List Char
  matched : List Char
  cap : List Char
  post : List Char
  deriving DecidableEq

/-- Leftmost match of the regex: scan start positions left to right, as a
non-global JS regex does. -/
def findFirst : List Char → Option MatchSplit
  | [] => none
  | c :: cs =>
    match matchAt (c :: cs) with
    | some (m, cap, r) => some ⟨[], m, cap, r⟩
    | none =>
      (findFirst cs).map (fun x => ⟨c :: x.pre, x.matched, x.cap, x.post⟩)

/-- JS `GetSubstitution` for a replacement string against a regex with one
capture group: `$$` yields `$`, `$&` the matched substring, a dollar followed
by a backquote the portion before the match, a dollar followed by a single
quote the portion after the match, `$1` the capture; any other `$` is
literal (`$2`..`$9` exceed the group count and `$<` has no named groups, so
both stay literal).  `m` is the matched substring, `p` the portion before the
match, `s` the portion after it, `c1` the capture. -/
def expandTemplate (m p s c1 : List Char) : List Char → List Char
  | [] => []
  | [d] => [d]
  | d :: e :: rest2 =>
    if d = dollar then
      if e = dollar then dollar :: expandTemplate m p s c1 rest2
      else if e = '&' then m ++ expandTemplate m p s c1 rest2
      else if e = backquote then p ++ expandTemplate m p s c1 rest2
      else if e = squote then s ++ expandTemplate m p s c1 rest2
      else if e = '1' then c1 ++ expandTemplate m p s c1 rest2
      else dollar :: expandTemplate m p s c1 (e :: rest2)
    else d :: expandTemplate m p s c1 (e :: rest2)

/-- The replacement string `"name": "${projectName}"` built by
`updatePackageJson` (template literal at src/index.js line 232). -/
def replacementTemplate (projectName : List Char) : List Char :=
  [qc, 'n', 'a', 'm', 'e', qc, ':', ' ', qc] ++ projectName ++ [qc]

/-- `updatePackageJson` from src/index.js lines 225-244 at the level of file
content: `content` is the text read from `package.json`, the result is the
text written back, i.e. `content.replace(/"name":\s*"(.*?)"/, '"name":
"projectName"')` with JS semantics.  The replacement itself cannot throw; the
try/catch in the source only guards filesystem read/write errors, which live
outside the content model. -/
def updatePackageJson (content projectName : List Char) : List Char :=
  match findFirst content with
  | none => content
  | some x =>
    x.pre ++ (expandTemplate x.matched x.pre x.post x.cap
      (replacementTemplate projectName) ++ x.post)

/-- A substring occurrence of the form `"name": "old"` with a single space,
the shape named by the spec. -/
def nameOccurrence (old : List Char) : List Char :=
  litName ++ (' ' :: qc :: (old ++ [qc]))

/-- Boolean prefix test on character lists. -/
def isPrefixList : List Char → List Char → Bool
  | [], _ => true
  | _ :: _, [] => false
  | a :: as, b :: bs => a == b && isPrefixList as bs

/-- Boolean substring test on character lists. -/
def hasSub (sub : List Char) : List Char → Bool
  | [] => isPrefixList sub []
  | c :: rest => isPrefixList sub (c :: rest) || hasSub sub rest

/-- A sample `package.json` content used by concrete witnesses:
`{"name": "old-name"}`. -/
def sampleJson : List Char :=
  lbrace :: (nameOccurrence ("old-name".toList) ++ [rbrace])

/-- A sample `package.json` content with no `"name"` field:
`{"version": 1}`. -/
def noNameJson : List Char :=
  lbrace :: ((qc :: ("version".toList ++ [qc, ':', ' ', '1'])) ++ [rbrace])

/-- Splitting a list at its maximal leading whitespace run is lossless. -/
theorem spanSpaces_append (l : List Char) :
    (spanSpaces l).1 ++ (spanSpaces l).2 = l := by
  induction l with
  | nil => rfl
  | cons c rest ih =>
    by_cases h : isJsWhitespace c = true
    · simp [spanSpaces, h, ih]
    · simp [spanSpaces, h]

/-- Soundness of the lazy capture: the input is the capture, the closing
quote, then the remainder. -/
theorem findCapture_split :
    ∀ {l cap r : List Char}, findCapture l = some (cap, r) → l = cap ++ (qc :: r) := by
  intro l
  induction l with
  | nil => intro cap r h; simp [findCapture] at h
  | cons c rest ih =>
    intro cap r h
    by_cases hq : c = qc
    · subst hq
      simp [findCapture] at h
      simp [← h.1, ← h.2]
    · by_cases hd : isDot c = true
      · simp only [findCapture, if_neg hq, if_pos hd, Option.map_eq_some'] at h
        obtain ⟨⟨cap0, r0⟩, h0, hpair⟩ := h
        obtain ⟨h1, h2⟩ := Prod.mk.injEq .. ▸ hpair
        subst h2
        rw [← h1, ih h0]
        simp
      · simp [findCapture, hq, hd] at h

/-- Completeness of the lazy capture at a well-formed occurrence: a value with
no quote and no line terminator is captured up to the next quote. -/
theorem findCapture_append (old post : List Char)
    (hold : ∀ c ∈ old, c ≠ qc ∧ isDot c = true) :
    findCapture (old ++ (qc :: post)) = some (old, post) := by
  induction old with
  | nil => simp [findCapture]
  | cons c rest ih =>
    have hc := hold c (by simp)
    have ih' := ih (fun d hd => hold d (by simp [hd]))
    show findCapture (c :: (rest ++ (qc :: post))) = some (c :: rest, post)
    rw [findCapture, if_neg hc.1, if_pos hc.2, ih']
    rfl

/-- Soundness of `matchAt`: a successful match splits its input into the
matched substring and the remainder. -/
theorem matchAt_split {cs m cap r : List Char} (h : matchAt cs = some (m, cap, r)) :
    cs = m ++ r := by
  unfold matchAt at h
  split at h
  case isFalse => exact absurd h (by simp)
  case isTrue h7 =>
    split at h
    case h_2 => exact absurd h (by simp)
    case h_1 sp c rest2 hsp =>
      split at h
      case isFalse => exact absurd h (by simp)
      case isTrue hq =>
        split at h
        case h_2 => exact absurd h (by simp)
        case h_1 cap0 rest3 hcap =>
          subst hq
          simp only [Option.some.injEq, Prod.mk.injEq] at h
          obtain ⟨hm, hcap0, hr⟩ := h
          have hsplit := spanSpaces_append (cs.drop 7)
          rw [hsp] at hsplit
          simp only at hsplit
          have hc := findCapture_split hcap
          subst hcap0 hr
          rw [← hm]
          calc cs = cs.take 7 ++ cs.drop 7 := (List.take_append_drop 7 cs).symm
            _ = litName ++ cs.drop 7 := by rw [h7]
            _ = litName ++ (sp ++ (qc :: rest2)) := by rw [hsplit]
            _ = _ := by rw [hc]; simp

/-- Completeness of `matchAt` at a well-formed occurrence `"name": "old"`. -/
theorem matchAt_nameOccurrence (old post : List Char)
    (hold : ∀ c ∈ old, c ≠ qc ∧ isDot c = true) :
    matchAt (nameOccurrence old ++ post) = some (nameOccurrence old, old, post) := by
  have htake : (nameOccurrence old ++ post).take 7 = litName := rfl
  have hdrop : (nameOccurrence old ++ post).drop 7
      = ' ' :: qc :: ((old ++ [qc]) ++ post) := rfl
  have hspan : spanSpaces (' ' :: qc :: ((old ++ [qc]) ++ post))
      = ([' '], qc :: ((old ++ [qc]) ++ post)) := rfl
  have hassoc : (old ++ [qc]) ++ post = old ++ (qc :: post) := by simp
  unfold matchAt
  rw [if_pos htake, hdrop, hspan]
  simp only [if_pos rfl]
  rw [hassoc, findCapture_append old post hold]
  simp [nameOccurrence]

/-- Soundness of `findFirst`: a successful search splits the text as
prefix, matched substring, suffix. -/
theorem findFirst_split :
    ∀ {cs : List Char} {x : MatchSplit}, findFirst cs = some x →
      cs = x.pre ++ (x.matched ++ x.post) := by
  intro cs
  induction cs with
  | nil => intro x h; simp [findFirst] at h
  | cons c rest ih =>
    intro x h
    unfold findFirst at h
    split at h
    case h_1 m cap r hm =>
      obtain rfl := (Option.some.injEq .. ▸ h).symm
      simpa using matchAt_split hm
    case h_2 =>
      rw [Option.map_eq_some'] at h
      obtain ⟨a, ha, rfl⟩ := h
      simpa using ih ha

/-- Completeness of `findFirst`: if the pattern matches at the head of some
suffix, the leftmost search succeeds. -/
theorem findFirst_isSome_append :
    ∀ (pre suffix : List Char), (matchAt suffix).isSome = true →
      (findFirst (pre ++ suffix)).isSome = true := by
  intro pre
  induction pre with
  | nil =>
    intro suffix h
    cases suffix with
    | nil => rw [show matchAt [] = none from rfl] at h; simp at h
    | cons c cs =>
      rw [List.nil_append]
      unfold findFirst
      rcases hm : matchAt (c :: cs) with _ | x
      · rw [hm] at h; simp at h
      · rcases x with ⟨m, cap, r⟩
        rfl
  | cons c pre ih =>
    intro suffix h
    rw [List.cons_append]
    unfold findFirst
    rcases hm : matchAt (c :: (pre ++ suffix)) with _ | x
    · simpa using ih suffix h
    · rcases x with ⟨m, cap, r⟩
      rfl

/-- Expansion of a replacement string containing no dollar character is
literal. -/
theorem expandTemplate_of_noDollar (m p s c1 : List Char) :
    ∀ l : List Char, (∀ c ∈ l, c ≠ dollar) → expandTemplate m p s c1 l = l := by
  intro l
  induction l with
  | nil => intro _; rfl
  | cons d rest ih =>
    intro h
    cases rest with
    | nil => rfl
    | cons e rest2 =>
      have hd : d ≠ dollar := h d (by simp)
      unfold expandTemplate
      rw [if_neg hd, ih (fun c hc => h c (by simp [hc]))]

/-- The replacement string built from a dollar-free project name is
dollar-free. -/
theorem replacementTemplate_noDollar {projectName : List Char}
    (h : ∀ c ∈ projectName, c ≠ dollar) :
    ∀ c ∈ replacementTemplate projectName, c ≠ dollar := by
  intro c hc
  rcases List.mem_append.mp hc with h1 | h2
  · rcases List.mem_append.mp h1 with h9 | hp
    · intro heq; subst heq; revert h9; decide
    · exact h c hp
  · intro heq; subst heq; revert h2; decide

/-- C1 (amended): for every project name containing no `$` character and every
`package.json` text containing a substring `"name": "<old>"` (with `<old>`
free of quotes and line terminators), `updatePackageJson` rewrites the text
around its leftmost match of `/"name":\s*"(.*?)"/` — the output is the prefix
before that first match, then the literal `"name": "<projectName>"`, then the
suffix after the match, byte-identical elsewhere.  The dollar restriction is
forced by JS `$`-substitution in replacement strings, see the counterexample. -/
theorem updatePackageJson_replaces_first_occurrence
    (projectName content pre old post : List Char)
    (hname : ∀ c ∈ projectName, c ≠ dollar)
    (hold : ∀ c ∈ old, c ≠ qc ∧ isDot c = true)
    (hcontent : content = pre ++ (nameOccurrence old ++ post)) :
    ∃ x : MatchSplit,
      findFirst content = some x ∧
      content = x.pre ++ (x.matched ++ x.post) ∧
      updatePackageJson content projectName
        = x.pre ++ (replacementTemplate projectName ++ x.post) := by
  have hsome : (findFirst content).isSome = true := by
    rw [hcontent]
    refine findFirst_isSome_append pre _ ?_
    rw [matchAt_nameOccurrence old post hold]
    rfl
  rcases hx : findFirst content with _ | x
  · rw [hx] at hsome; simp at hsome
  · refine ⟨x, rfl, findFirst_split hx, ?_⟩
    simp only [updatePackageJson, hx]
    rw [expandTemplate_of_noDollar _ _ _ _ _ (replacementTemplate_noDollar hname)]

/-- C1 witness: with content `{"name": "old-name"}` and project name `my-app`,
the customization yields `{"name": "my-app"}` via the decomposition above. -/
theorem updatePackageJson_replaces_first_occurrence_witness :
    ∃ x : MatchSplit,
      findFirst sampleJson = some x ∧
      sampleJson = x.pre ++ (x.matched ++ x.post) ∧
      updatePackageJson sampleJson ("my-app".toList)
        = x.pre ++ (replacementTemplate ("my-app".toList) ++ x.post) :=
  updatePackageJson_replaces_first_occurrence ("my-app".toList) sampleJson
    [lbrace] ("old-name".toList) [rbrace] (by decide) (by decide) (by decide)

/-- C1 counterexample: the original claim fails for the project name `$$`.
On `{"name": "old-name"}` the code produces `{"name": "$"}` (JS replacement
strings collapse `$$` to `$`), so the output does not contain
`"name": "$$"` and no single-substring substitution by the chosen name
occurred. -/
theorem updatePackageJson_dollar_counterexample :
    updatePackageJson sampleJson [dollar, dollar]
        = lbrace :: (nameOccurrence [dollar] ++ [rbrace]) ∧
    hasSub (replacementTemplate [dollar, dollar])
        (updatePackageJson sampleJson [dollar, dollar]) = false := by
  exact ⟨by decide, by decide⟩

/-- C2: when no substring of the content matches `/"name":\s*"(.*?)"/`, the
customization step completes without error and writes the content back
unchanged. -/
theorem updatePackageJson_no_match_unchanged (content projectName : List Char)
    (h : findFirst content = none) :
    updatePackageJson content projectName = content := by
  unfold updatePackageJson
  rw [h]

/-- C2 witness: the content `{"version": 1}` has no `"name"` string field, and
is written back unchanged. -/
theorem updatePackageJson_no_match_unchanged_witness :
    findFirst noNameJson = none ∧
    updatePackageJson noNameJson ("my-app".toList) = noNameJson :=
  ⟨by decide, updatePackageJson_no_match_unchanged _ _ (by decide)⟩

/-- Result of `fs.stat` on a path as far as `checkFolderExists` inspects it:
an existing directory, an existing non-directory entry, a not-found error
(code `ENOENT`), or any other error. -/
inductive StatResult
  | isDir
  | notDir
  | enoent
  | otherErr
  deriving DecidableEq

/-- Process exit status at the end of a modelled step. -/
inductive ExitCode
  | success
  | failure
  deriving DecidableEq

/-- `promptForProjectName` from src/index.js lines 85-107: ask for a name,
trim the answer, accept it if non-empty and otherwise print a warning and ask
again.  `inputs` is the queue of answers typed at the prompt; the result
carries the accepted name and the number of prompts asked, `none` when the
queue is exhausted with no acceptable answer (the real program would still be
waiting for input). -/
def promptForProjectName : List (List Char) → Option (List Char × Nat)
  | [] => none
  | answer :: rest =>
    if jsTrim answer ≠ [] then some (jsTrim answer, 1)
    else (promptForProjectName rest).map (fun r => (r.1, r.2 + 1))

/-- `checkFolderExists` from src/index.js lines 109-143 together with
`promptForNewProjectName` (lines 128-143).  `stat` gives the `fs.stat`
outcome for a name under the current working directory and `ans` the oracle
of answers typed at prompts.  When the stat result is a directory, the
function warns and runs `promptForNewProjectName` once, resolving with the
trimmed answer and no further checks of any kind; a stat error other than
`ENOENT` reports and calls `process.exit(1)`, modelled as `Except.error`.
The result carries the returned name and the number of prompts asked. -/
def checkFolderExists (name : List Char) (stat : List Char → StatResult)
    (ans : Nat → List Char) : Except Unit (List Char × Nat) :=
  match stat name with
  | .isDir => .ok (jsTrim (ans 0), 1)
  | .notDir => .ok (name, 0)
  | .enoent => .ok (name, 0)
  | .otherErr => .error ()

/-- The fixed choice list of `promptPackageManager` (src/index.js line 153). -/
def packageManagerChoices : List (List Char) :=
  ["npm".toList, "yarn".toList, "pnpm".toList, "bun".toList]

/-- An inquirer list-type prompt: the library only ever resolves with one of
the offered choices; `sel` is the choice the user settles on. -/
def inquirerListChoice (choices : List (List Char)) (sel : Fin choices.length) :
    List Char :=
  choices.get sel

/-- `promptPackageManager` from src/index.js lines 145-159: an inquirer list
prompt over the four fixed choices, returning the selected answer. -/
def promptPackageManager (sel : Fin packageManagerChoices.length) : List Char :=
  inquirerListChoice packageManagerChoices sel

/-- Working directory an external command is executed in. -/
inductive WorkDir
  | tempDir
  | targetProject
  | currentDir
  deriving DecidableEq

/-- An external command invocation: the command line and the working
directory it runs in. -/
structure ExecCall where
  cmd : List Char
  cwd : WorkDir
  deriving DecidableEq

/-- `installInquirer` from src/index.js lines 170-200: create a fresh
temporary directory with `mkdtemp(join(tmpdir(), 'litpack-'))`, pick the
install command for the given package manager in the `switch`, and `exec` it
with `cwd` set to that temporary directory; the `default` branch rejects with
an "Unsupported package manager" error. -/
def installInquirer (packageManager : List Char) : Except (List Char) ExecCall :=
  if packageManager = "npm".toList then
    .ok ⟨"npm install inquirer --no-package-lock --no-save".toList, .tempDir⟩
  else if packageManager = "yarn".toList then
    .ok ⟨"yarn add inquirer --ignore-engines".toList, .tempDir⟩
  else if packageManager = "pnpm".toList then
    .ok ⟨"pnpm add inquirer --no-save".toList, .tempDir⟩
  else if packageManager = "bun".toList then
    .ok ⟨"bun add inquirer --no-save".toList, .tempDir⟩
  else
    .error ("Unsupported package manager: ".toList ++ packageManager)

/-- Whether an install invocation was constructed rather than rejected. -/
def execOk : Except (List Char) ExecCall → Bool
  | .ok _ => true
  | .error _ => false

/-- Outcome of the external `git clone` and `git checkout stable` commands. -/
structure CloneEnv where
  cloneOk : Bool
  checkoutOk : Bool
  deriving DecidableEq

/-- `cloneRepo` from src/index.js lines 202-222 at the level of success and
failure: `git clone <repoUrl> <targetDir>` runs first and
`git -C <targetDir> checkout stable` second; if either `execSync` throws, the
cosmetic interval is cleared and the promise rejects with the error,
otherwise it resolves once the progress bar completes. -/
def cloneRepo (env : CloneEnv) : Except Unit Unit :=
  if env.cloneOk then
    if env.checkoutOk then .ok () else .error ()
  else .error ()

/-- Observable outcome of the main try block of src/index.js lines 53-82. -/
structure CreateResult where
  exit : ExitCode
  dirs : List (List Char)
  cloneCalls : Nat
  deriving DecidableEq

/-- The main try block of src/index.js lines 53-82 after the name and package
manager are fixed: create the target directory with `fs.mkdir { recursive }`
(idempotent when it already exists), call `cloneRepo` exactly once, and on a
rejection fall into the catch block, which reports the error and calls
`process.exit(1)` without removing the created directory; on success continue
into the `package.json` update and the completion report.  `cwdDirs` lists
the directories existing under the current working directory. -/
def createProject (cwdDirs : List (List Char)) (projectName : List Char)
    (env : CloneEnv) : CreateResult :=
  let dirs1 := if projectName ∈ cwdDirs then cwdDirs else projectName :: cwdDirs
  match cloneRepo env with
  | .error _ => ⟨.failure, dirs1, 1⟩
  | .ok _ => ⟨.success, dirs1, 1⟩

/-- The "not installed" message of `projectCreated` (src/index.js line 256). -/
def notInstalledMsg (packageManager : List Char) : List Char :=
  "❌ ".toList ++ packageManager ++ " is not installed. Please install it.".toList

/-- `projectCreated` from src/index.js lines 246-287: print the success
banner, try the package manager's `--version` with output ignored — a throw
is caught and answered with a "not installed" message plus an install hint
for pnpm, yarn and bun — then print the follow-up instructions.  The function
returns in every case; the process goes on to exit normally, so the modelled
exit status is always `success`. -/
def projectCreated (projectName packageManager : List Char)
    (versionCheckOk : Bool) : List (List Char) × ExitCode :=
  (("🎉 Project \"".toList ++ projectName ++ "\" created successfully!".toList) ::
    ((if versionCheckOk then
        [("✅ ".toList ++ packageManager ++ " is installed.".toList)]
      else
        (notInstalledMsg packageManager) ::
          ("You can install ".toList ++ packageManager ++ " using:".toList) ::
          (if packageManager = "pnpm".toList then ["📦 npm install -g pnpm".toList]
           else if packageManager = "yarn".toList then ["📦 npm install -g yarn".toList]
           else if packageManager = "bun".toList then ["📦 npm install -g bun".toList]
           else [])) ++
      (("\n🚀 To get started, navigate into your project folder:".toList) ::
        ("📁 cd ".toList ++ projectName) ::
        ("Then, install the dependencies with:".toList) ::
        ("🔗 ".toList ++ packageManager ++ " install".toList) ::
        ("\n🛠️ You can run the following lifecycle scripts:".toList) ::
        ("1. 🧹 Clean the build directory: ".toList ++ packageManager ++ " run clean".toList) ::
        ("2. 🏗️ Build the project: ".toList ++ packageManager ++ " run build".toList) ::
        [("3. 🚦 Start the development server: ".toList ++ packageManager ++ " start".toList)])),
    ExitCode.success)

/-- The module-level `let projectName = process.argv[2]` together with the
falsy check of src/index.js lines 14 and 22-24: a missing argument (`none`)
or an empty-string argument (both falsy in JS) falls back to the interactive
prompt; any other argument is used verbatim, with no trim and no
emptiness-after-trim validation.  The result carries the name and the number
of prompts asked. -/
def resolveProjectName (argv2 : Option (List Char)) (inputs : List (List Char)) :
    Option (List Char × Nat) :=
  match argv2 with
  | none => promptForProjectName inputs
  | some a => if a = [] then promptForProjectName inputs else some (a, 0)

/-- Lines 22-26 of src/index.js: obtain the initial project name from the
argv slot or the prompt, then pass it through the `checkFolderExists`
collision check; the surviving name is the one used for the target
directory. -/
def collectProjectName (argv2 : Option (List Char)) (inputs : List (List Char))
    (stat : List Char → StatResult) (ans : Nat → List Char) :
    Option (Except Unit (List Char)) :=
  match resolveProjectName argv2 inputs with
  | none => none
  | some (n, _) =>
    match checkFolderExists n stat ans with
    | .error e => some (.error e)
    | .ok (r, _) => some (.ok r)

/-- C3: when the stat of the requested name reports an existing directory,
`checkFolderExists` asks exactly one replacement prompt and returns the
trimmed answer as is — for every stat oracle and every answer, so in
particular when the trimmed answer is empty or itself names an existing
directory. -/
theorem checkFolderExists_collision_single_reprompt
    (name : List Char) (stat : List Char → StatResult) (ans : Nat → List Char)
    (h : stat name = StatResult.isDir) :
    checkFolderExists name stat ans = .ok (jsTrim (ans 0), 1) := by
  unfold checkFolderExists
  rw [h]

/-- C3 witness: the requested name collides, every directory "exists" (so the
replacement would collide too) and the replacement answer trims to empty; the
check still returns the empty trimmed answer after the single re-prompt. -/
theorem checkFolderExists_collision_single_reprompt_witness :
    jsTrim ("   ".toList) = [] ∧
    checkFolderExists ("my-app".toList) (fun _ => StatResult.isDir)
      (fun _ => "   ".toList) = .ok ([], 1) := by
  refine ⟨by decide, ?_⟩
  rw [checkFolderExists_collision_single_reprompt ("my-app".toList)
    (fun _ => StatResult.isDir) (fun _ => "   ".toList) rfl]
  rw [show jsTrim ("   ".toList) = [] from by decide]

/-- C4: with no command-line argument the name is read by the prompt loop;
answers that trim to empty are re-prompted, and the first answer that is
non-empty after trimming is returned trimmed, after exactly one prompt per
answer consumed. -/
theorem promptForProjectName_loops_until_nonempty
    (skipped : List (List Char)) (answer : List Char) (rest : List (List Char))
    (hskip : ∀ s ∈ skipped, jsTrim s = []) (hne : jsTrim answer ≠ []) :
    resolveProjectName none (skipped ++ answer :: rest)
      = promptForProjectName (skipped ++ answer :: rest) ∧
    promptForProjectName (skipped ++ answer :: rest)
      = some (jsTrim answer, skipped.length + 1) := by
  refine ⟨rfl, ?_⟩
  induction skipped with
  | nil => simp [promptForProjectName, hne]
  | cons s skipped ih =>
    have hs : jsTrim s = [] := hskip s (by simp)
    rw [List.cons_append, promptForProjectName, if_neg (by simp [hs])]
    rw [ih (fun t ht => hskip t (by simp [ht]))]
    simp [Nat.add_comm]

/-- C4 witness: the whitespace answer is rejected and the loop accepts the
second, trimmed answer. -/
theorem promptForProjectName_loops_until_nonempty_witness :
    promptForProjectName [("  ".toList), (" my-app ".toList)]
      = some ("my-app".toList, 2) := by
  have h := (promptForProjectName_loops_until_nonempty
    [("  ".toList)] (" my-app ".toList) [] (by decide) (by decide)).2
  rw [show ([("  ".toList)] ++ (" my-app ".toList) :: [])
      = [("  ".toList), (" my-app ".toList)] from rfl] at h
  rw [h]
  decide

/-- C5: the package-manager selector resolves with an element of the fixed
inquirer choice list, hence always one of the four strings npm, yarn, pnpm,
bun. -/
theorem promptPackageManager_closed_set (sel : Fin packageManagerChoices.length) :
    promptPackageManager sel = "npm".toList ∨
    promptPackageManager sel = "yarn".toList ∨
    promptPackageManager sel = "pnpm".toList ∨
    promptPackageManager sel = "bun".toList := by
  revert sel
  decide

/-- C6: when the clone or the checkout command fails, the created project
directory stays in the directory listing, the clone step ran exactly once
(no retry), and the run ends with a fatal report and non-zero exit. -/
theorem createProject_clone_failure_no_cleanup
    (cwdDirs : List (List Char)) (projectName : List Char) (env : CloneEnv)
    (h : env.cloneOk = false ∨ env.checkoutOk = false) :
    (createProject cwdDirs projectName env).exit = ExitCode.failure ∧
    projectName ∈ (createProject cwdDirs projectName env).dirs ∧
    (createProject cwdDirs projectName env).cloneCalls = 1 := by
  have hclone : cloneRepo env = .error () := by
    rcases h with h | h
    · simp [cloneRepo, h]
    · cases hc : env.cloneOk <;> simp [cloneRepo, h, hc]
  refine ⟨by simp [createProject, hclone], ?_, by simp [createProject, hclone]⟩
  by_cases hm : projectName ∈ cwdDirs <;> simp [createProject, hclone, hm]

/-- C6 witness: a failing clone into an empty working directory leaves the
just-created `my-app` directory in place and exits with failure. -/
theorem createProject_clone_failure_no_cleanup_witness :
    (createProject [] ("my-app".toList) ⟨false, true⟩).exit = ExitCode.failure ∧
    ("my-app".toList) ∈ (createProject [] ("my-app".toList) ⟨false, true⟩).dirs ∧
    (createProject [] ("my-app".toList) ⟨false, true⟩).cloneCalls = 1 :=
  createProject_clone_failure_no_cleanup [] ("my-app".toList) ⟨false, true⟩
    (Or.inl rfl)

/-- C7: for each of the four supported package managers the dependency
installer builds exactly the documented command and executes it with the
fresh temporary directory as working directory; moreover every constructed
invocation runs in the temporary directory, never in the target project or
the current working directory. -/
theorem installInquirer_commands_in_tempdir :
    installInquirer ("npm".toList)
      = .ok ⟨"npm install inquirer --no-package-lock --no-save".toList, .tempDir⟩ ∧
    installInquirer ("yarn".toList)
      = .ok ⟨"yarn add inquirer --ignore-engines".toList, .tempDir⟩ ∧
    installInquirer ("pnpm".toList)
      = .ok ⟨"pnpm add inquirer --no-save".toList, .tempDir⟩ ∧
    installInquirer ("bun".toList)
      = .ok ⟨"bun add inquirer --no-save".toList, .tempDir⟩ ∧
    (∀ pm call, installInquirer pm = .ok call →
      call.cwd = WorkDir.tempDir ∧ call.cwd ≠ WorkDir.targetProject ∧
        call.cwd ≠ WorkDir.currentDir) := by
  refine ⟨rfl, rfl, rfl, rfl, ?_⟩
  intro pm call h
  unfold installInquirer at h
  split_ifs at h <;>
    first
      | (injection h with h1; subst h1; exact ⟨rfl, by decide, by decide⟩)
      | exact Except.noConfusion h

/-- C7 witness: the npm invocation as constructed runs in the temporary
directory. -/
theorem installInquirer_commands_in_tempdir_witness :
    installInquirer ("npm".toList)
      = .ok ⟨"npm install inquirer --no-package-lock --no-save".toList, .tempDir⟩ ∧
    (⟨"npm install inquirer --no-package-lock --no-save".toList,
        WorkDir.tempDir⟩ : ExecCall).cwd = WorkDir.tempDir :=
  ⟨installInquirer_commands_in_tempdir.1,
    (installInquirer_commands_in_tempdir.2.2.2.2 ("npm".toList) _
      installInquirer_commands_in_tempdir.1).1⟩

/-- C8: a failing version check never escalates: for every project name and
package manager the completion reporter still finishes with exit status 0,
its output contains the "not installed" message, and for pnpm, yarn and bun
also the manager-specific install hint. -/
theorem projectCreated_version_check_failure
    (projectName packageManager : List Char) :
    (projectCreated projectName packageManager false).2 = ExitCode.success ∧
    notInstalledMsg packageManager
      ∈ (projectCreated projectName packageManager false).1 ∧
    (packageManager = "pnpm".toList →
      ("📦 npm install -g pnpm".toList)
        ∈ (projectCreated projectName packageManager false).1) ∧
    (packageManager = "yarn".toList →
      ("📦 npm install -g yarn".toList)
        ∈ (projectCreated projectName packageManager false).1) ∧
    (packageManager = "bun".toList →
      ("📦 npm install -g bun".toList)
        ∈ (projectCreated projectName packageManager false).1) := by
  refine ⟨rfl, ?_, ?_, ?_, ?_⟩
  · simp [projectCreated]
  · rintro rfl; simp [projectCreated]
  · rintro rfl; simp [projectCreated]
  · rintro rfl; simp [projectCreated]

/-- C8 witness: with pnpm selected and the version check failing, the run
ends successfully and prints both the "not installed" message and the
`npm install -g pnpm` hint. -/
theorem projectCreated_version_check_failure_witness :
    (projectCreated ("my-app".toList) ("pnpm".toList) false).2 = ExitCode.success ∧
    notInstalledMsg ("pnpm".toList)
      ∈ (projectCreated ("my-app".toList) ("pnpm".toList) false).1 ∧
    ("📦 npm install -g pnpm".toList)
      ∈ (projectCreated ("my-app".toList) ("pnpm".toList) false).1 :=
  ⟨(projectCreated_version_check_failure ("my-app".toList) ("pnpm".toList)).1,
    (projectCreated_version_check_failure ("my-app".toList) ("pnpm".toList)).2.1,
    (projectCreated_version_check_failure ("my-app".toList) ("pnpm".toList)).2.2.1 rfl⟩

/-- C9: starting from the selector, the "Unsupported package manager"
rejection branch of the installer is unreachable: whatever choice the user
makes, the installer constructs an invocation. -/
theorem installInquirer_default_unreachable
    (sel : Fin packageManagerChoices.length) :
    execOk (installInquirer (promptPackageManager sel)) = true := by
  revert sel
  decide

/-- C10: a non-empty first command-line argument is taken verbatim — neither
trimmed nor checked for emptiness after trimming — and flows as is through
the collision check into directory creation. -/
theorem argvProjectName_used_verbatim
    (a : List Char) (inputs : List (List Char)) (stat : List Char → StatResult)
    (ans : Nat → List Char) (ha : a ≠ []) (hstat : stat a = StatResult.enoent) :
    resolveProjectName (some a) inputs = some (a, 0) ∧
    collectProjectName (some a) inputs stat ans = some (.ok a) := by
  have h1 : resolveProjectName (some a) inputs = some (a, 0) := by
    simp [resolveProjectName, ha]
  refine ⟨h1, ?_⟩
  simp [collectProjectName, h1, checkFolderExists, hstat]

/-- C10 witness: a whitespace-only argument is non-empty, so it bypasses the
prompt, the trim and the non-emptiness check, and survives the collision
check verbatim. -/
theorem argvProjectName_used_verbatim_witness :
    jsTrim (" ".toList) = [] ∧
    resolveProjectName (some (" ".toList)) [] = some ((" ".toList), 0) ∧
    collectProjectName (some (" ".toList)) [] (fun _ => StatResult.enoent)
      (fun _ => []) = some (.ok (" ".toList)) :=
  ⟨by decide,
    (argvProjectName_used_verbatim (" ".toList) [] (fun _ => StatResult.enoent)
      (fun _ => []) (by decide) rfl).1,
    (argvProjectName_used_verbatim (" ".toList) [] (fun _ => StatResult.enoent)
      (fun _ => []) (by decide) rfl).2⟩

end Litpack
